import Mathlib

/-!
Shallow embedding of the CSS selector builder of `src/05-objects-tasks.js`
(`CssSelectorClass` and the `cssSelectorBuilder` facade).

Modelling choices:
* `this.main` is a plain object holding, per category key, an array of string
  fragments; an absent key is `none`, a present array is `some xs`.  A JS array
  is truthy (even when empty), so the source's truthiness tests on
  `this.main.<cat>` become `Option.isSome`.
* The constructor call `new CssSelectorClass('_', '_', s1, comb, s2)` made by
  `combine` stores the bookkeeping key `'_'` in `main`; it is kept in the
  field `other` (it is never read by any method).
* Each method mutates the instance and then possibly throws; this is modelled
  by returning the updated state together with an optional error, so the
  mutated state is observable even when an error is raised.
* JS template literals coerce `undefined` to the string `"undefined"`;
  `jsTemplate` reproduces this (the fields are always set when read, but the
  coercion is kept for faithfulness).
-/

/-- The two errors thrown by `CssSelectorClass` methods, identified by which
of the two fixed messages (`errorMsgUnique` / `errorMsgOrder`) they carry. -/
inductive SelErr
  | unique
  | order
deriving DecidableEq

/-- The message text of each error, as stored in the constructor
(`this.errorMsgUnique`, `this.errorMsgOrder`). -/
def errorMessage : SelErr → String
  | SelErr.unique => "Element, id and pseudo-element should not occur more then one time inside the selector"
  | SelErr.order => "Selector parts should be arranged in the following order: element, id, class, attribute, pseudo-class, pseudo-element"

/-- The state of one `CssSelectorClass` instance: the six category keys of
`this.main` (plus the inert `'_'` key written by `combine`, kept as `other`),
and the three compound-selector fields. -/
structure SelState where
  element : Option (List String)
  id : Option (List String)
  className : Option (List String)
  attr : Option (List String)
  pseudoClass : Option (List String)
  pseudoElement : Option (List String)
  other : Option (List String)
  selector1 : Option String
  combinator : Option String
  selector2 : Option String
deriving DecidableEq

/-- `o ? [...o, v] : [v]` — append `v` to the category array, creating it when
absent (a present JS array is truthy even when empty, and spreading an empty
array yields `[v]`, matching the `none`/`some []` cases coinciding on `[v]`
only when the array is empty). -/
def jsPush : Option (List String) → String → List String
  | some xs, v => xs ++ [v]
  | none, v => [v]

/-- `element(value)` (source lines 130–147): append to `main.element`, then
throw the uniqueness error if the array has ≥ 2 entries, then throw the order
error if any of id/className/attr/pseudoClass/pseudoElement is present. -/
def elementM (v : String) (s : SelState) : SelState × Option SelErr :=
  let el := jsPush s.element v
  let s' := { s with element := some el }
  if 2 ≤ el.length then (s', some SelErr.unique)
  else if s'.id.isSome || s'.className.isSome || s'.attr.isSome
      || s'.pseudoClass.isSome || s'.pseudoElement.isSome then
    (s', some SelErr.order)
  else (s', none)

/-- `id(value)` (source lines 149–163). -/
def idM (v : String) (s : SelState) : SelState × Option SelErr :=
  let ids := jsPush s.id v
  let s' := { s with id := some ids }
  if 2 ≤ ids.length then (s', some SelErr.unique)
  else if s'.className.isSome || s'.attr.isSome
      || s'.pseudoClass.isSome || s'.pseudoElement.isSome then
    (s', some SelErr.order)
  else (s', none)

/-- `class(value)` (source lines 165–177); the JS method is named `class`,
which is a Lean keyword, hence `classM`. -/
def classM (v : String) (s : SelState) : SelState × Option SelErr :=
  let cs := jsPush s.className v
  let s' := { s with className := some cs }
  if s'.attr.isSome || s'.pseudoClass.isSome || s'.pseudoElement.isSome then
    (s', some SelErr.order)
  else (s', none)

/-- `attr(value)` (source lines 179–188). -/
def attrM (v : String) (s : SelState) : SelState × Option SelErr :=
  let as' := jsPush s.attr v
  let s' := { s with attr := some as' }
  if s'.pseudoClass.isSome || s'.pseudoElement.isSome then
    (s', some SelErr.order)
  else (s', none)

/-- `pseudoClass(value)` (source lines 190–200). -/
def pseudoClassM (v : String) (s : SelState) : SelState × Option SelErr :=
  let ps := jsPush s.pseudoClass v
  let s' := { s with pseudoClass := some ps }
  if s'.pseudoElement.isSome then
    (s', some SelErr.order)
  else (s', none)

/-- `pseudoElement(value)` (source lines 202–210): only the uniqueness check,
no order check. -/
def pseudoElementM (v : String) (s : SelState) : SelState × Option SelErr :=
  let ps := jsPush s.pseudoElement v
  let s' := { s with pseudoElement := some ps }
  if 2 ≤ ps.length then (s', some SelErr.unique)
  else (s', none)

/-- JS truthiness of a possibly-undefined string field: `undefined` and `''`
are falsy, every other string is truthy. -/
def jsTruthyStr : Option String → Bool
  | none => false
  | some t => !t.isEmpty

/-- JS template-literal coercion of a possibly-undefined string. -/
def jsTemplate : Option String → String
  | none => "undefined"
  | some t => t

/-- `this.main = {}` — clears all category keys (including the `'_'` key) and
leaves `selector1`/`combinator`/`selector2` untouched. -/
def clearMain (s : SelState) : SelState :=
  { s with
    element := none,
    id := none,
    className := none,
    attr := none,
    pseudoClass := none,
    pseudoElement := none,
    other := none }

/-- The simple-selector branch of `stringify()` (source lines 219–236): for
each present category, append its fragments with the category glue. -/
def simpleString (s : SelState) : String :=
  (match s.element with
    | some xs => String.join xs
    | none => "")
  ++ (match s.id with
    | some xs => "#" ++ String.join xs
    | none => "")
  ++ (match s.className with
    | some xs => "." ++ String.intercalate "." xs
    | none => "")
  ++ (match s.attr with
    | some xs => "[" ++ String.join xs ++ "]"
    | none => "")
  ++ (match s.pseudoClass with
    | some xs => ":" ++ String.intercalate ":" xs
    | none => "")
  ++ (match s.pseudoElement with
    | some xs => "::" ++ String.join xs
    | none => "")

/-- `stringify()` (source lines 212–239): if `this.combinator` is truthy,
return the interpolated `"{selector1} {combinator} {selector2}"` and clear
`main`; otherwise build the simple-selector string and clear `main`.  Returns
the string together with the mutated instance state. -/
def stringifyM (s : SelState) : String × SelState :=
  if jsTruthyStr s.combinator then
    (jsTemplate s.selector1 ++ " " ++ jsTemplate s.combinator ++ " "
      ++ jsTemplate s.selector2, clearMain s)
  else
    (simpleString s, clearMain s)

/-- A fresh instance with nothing set; `new CssSelectorClass(k, v)` is this
with `main = { k: [v] }`. -/
def emptyState : SelState :=
  ⟨none, none, none, none, none, none, none, none, none, none⟩

/-- `cssSelectorBuilder.element(value)` (source lines 244–246). -/
def builderElement (v : String) : SelState :=
  { emptyState with element := some [v] }

/-- `cssSelectorBuilder.id(value)` (source lines 248–250). -/
def builderId (v : String) : SelState :=
  { emptyState with id := some [v] }

/-- `cssSelectorBuilder.class(value)` (source lines 252–254); stores under the
`className` key. -/
def builderClass (v : String) : SelState :=
  { emptyState with className := some [v] }

/-- `cssSelectorBuilder.attr(value)` (source lines 256–258). -/
def builderAttr (v : String) : SelState :=
  { emptyState with attr := some [v] }

/-- `cssSelectorBuilder.pseudoClass(value)` (source lines 260–262). -/
def builderPseudoClass (v : String) : SelState :=
  { emptyState with pseudoClass := some [v] }

/-- `cssSelectorBuilder.pseudoElement(value)` (source lines 264–266). -/
def builderPseudoElement (v : String) : SelState :=
  { emptyState with pseudoElement := some [v] }

/-- An argument to `combine`: either a builder instance (a JS object) or a raw
string. -/
inductive CombineArg
  | sel (s : SelState)
  | str (t : String)

/-- `typeof x === 'object' ? x.stringify() : x` — the string a `combine`
argument contributes (stringifying a builder instance). -/
def argString : CombineArg → String
  | CombineArg.sel s => (stringifyM s).1
  | CombineArg.str t => t

/-- `cssSelectorBuilder.combine(selector1, combinator, selector2)` (source
lines 268–272): stringify any object argument and construct
`new CssSelectorClass('_', '_', cssSelector1, combinator, cssSelector2)`. -/
def cssCombine (s1 : CombineArg) (comb : String) (s2 : CombineArg) : SelState :=
  { emptyState with
    other := some ["_"],
    selector1 := some (argString s1),
    combinator := some comb,
    selector2 := some (argString s2) }

/-- `cssSelectorBuilder.stringify(value)` (source lines 274–276): identity on
its argument. -/
def builderStringify (v : String) : String := v

/-- One category-method call with its argument. -/
inductive Call
  | element (v : String)
  | id (v : String)
  | cls (v : String)
  | attr (v : String)
  | pseudoClass (v : String)
  | pseudoElement (v : String)

/-- Dispatch a call to the corresponding `CssSelectorClass` method. -/
def applyCall : Call → SelState → SelState × Option SelErr
  | Call.element v, s => elementM v s
  | Call.id v, s => idM v s
  | Call.cls v, s => classM v s
  | Call.attr v, s => attrM v s
  | Call.pseudoClass v, s => pseudoClassM v s
  | Call.pseudoElement v, s => pseudoElementM v s

/-- Dispatch the first call of a chain to the corresponding facade method of
`cssSelectorBuilder` (which constructs a fresh instance). -/
def facadeOf : Call → SelState
  | Call.element v => builderElement v
  | Call.id v => builderId v
  | Call.cls v => builderClass v
  | Call.attr v => builderAttr v
  | Call.pseudoClass v => builderPseudoClass v
  | Call.pseudoElement v => builderPseudoElement v

/-- Run a list of method calls on an instance; a thrown error aborts the
chain, leaving the instance in its mutated state. -/
def runCalls : List Call → SelState → SelState × Option SelErr
  | [], s => (s, none)
  | c :: cs, s =>
    match applyCall c s with
    | (s', none) => runCalls cs s'
    | (s', some e) => (s', some e)

/-- The six fragment categories, in the mandated order. -/
inductive Cat
  | element
  | id
  | className
  | attr
  | pseudoClass
  | pseudoElement
deriving DecidableEq

/-- Position of a category in the mandated order. -/
def rank : Cat → Nat
  | Cat.element => 0
  | Cat.id => 1
  | Cat.className => 2
  | Cat.attr => 3
  | Cat.pseudoClass => 4
  | Cat.pseudoElement => 5

/-- The `main` entry of a given category. -/
def catField (s : SelState) : Cat → Option (List String)
  | Cat.element => s.element
  | Cat.id => s.id
  | Cat.className => s.className
  | Cat.attr => s.attr
  | Cat.pseudoClass => s.pseudoClass
  | Cat.pseudoElement => s.pseudoElement

/-- Whether a category already has an entry on the instance. -/
def present (s : SelState) (c : Cat) : Bool := (catField s c).isSome

/-- The category a call appends to. -/
def catOf : Call → Cat
  | Call.element _ => Cat.element
  | Call.id _ => Cat.id
  | Call.cls _ => Cat.className
  | Call.attr _ => Cat.attr
  | Call.pseudoClass _ => Cat.pseudoClass
  | Call.pseudoElement _ => Cat.pseudoElement

/-- The argument of a call. -/
def valOf : Call → String
  | Call.element v => v
  | Call.id v => v
  | Call.cls v => v
  | Call.attr v => v
  | Call.pseudoClass v => v
  | Call.pseudoElement v => v

/-- Iterated `jsPush`: the array a category holds after appending each value
of `vs` in order to an initial (possibly absent) array. -/
def jsFold : Option (List String) → List String → Option (List String)
  | o, [] => o
  | o, v :: vs => jsFold (some (jsPush o v)) vs

/-- The call sequence that adds the given fragments in the mandated category
order: at most one element, at most one id, any number of classes, attributes
and pseudo-classes, at most one pseudo-element. -/
def callsOf (e i : Option String) (cls a pc : List String) (pe : Option String) :
    List Call :=
  e.toList.map Call.element ++ i.toList.map Call.id ++ cls.map Call.cls
    ++ a.map Call.attr ++ pc.map Call.pseudoClass
    ++ pe.toList.map Call.pseudoElement

/-- The concatenation rule as the specification states it: in fixed category
order, each present category's fragments with its glue — element joined with
`''` and no prefix, id joined with `''` prefixed `#`, class prefixed `.` and
joined with `.`, attr joined with `''` and wrapped in one pair of brackets,
pseudo-class prefixed `:` and joined with `:`, pseudo-element prefixed `::`
and joined with `''`; absent categories contribute nothing. -/
def specConcat (e i : Option String) (cls a pc : List String) (pe : Option String) :
    String :=
  (match e with
    | some x => x
    | none => "")
  ++ (match i with
    | some x => "#" ++ x
    | none => "")
  ++ (if cls = [] then "" else "." ++ String.intercalate "." cls)
  ++ (if a = [] then "" else "[" ++ String.join a ++ "]")
  ++ (if pc = [] then "" else ":" ++ String.intercalate ":" pc)
  ++ (match pe with
    | some x => "::" ++ x
    | none => "")

/-- Run a list of calls on a single instance, keeping only the resulting
state (used to describe one chain's evolution in isolation). -/
def runAll (cs : List Call) (s : SelState) : SelState :=
  cs.foldl (fun t c => (applyCall c t).1) s

/-- One step of a two-chain world: apply a call to the first chain when the
tag is `true`, to the second chain when it is `false`. -/
def stepW (p : SelState × SelState) (c : Bool × Call) : SelState × SelState :=
  if c.1 then ((applyCall c.2 p.1).1, p.2) else (p.1, (applyCall c.2 p.2).1)

/-- Run an arbitrary interleaving of calls on two chains. -/
def runW (tr : List (Bool × Call)) (p : SelState × SelState) : SelState × SelState :=
  tr.foldl stepW p

/-! ### Basic lemmas about the embedded operations -/

lemma jsFold_some (xs vs : List String) :
    jsFold (some xs) vs = some (xs ++ vs) := by
  induction vs generalizing xs with
  | nil => simp [jsFold]
  | cons v vs ih => simp [jsFold, jsPush, ih]

lemma jsFold_none (vs : List String) :
    jsFold none vs = if vs = [] then none else some vs := by
  cases vs with
  | nil => simp [jsFold]
  | cons v vs => simp [jsFold, jsPush, jsFold_some]

lemma elementM_eq (v : String) (s : SelState) :
    elementM v s =
      if 2 ≤ (jsPush s.element v).length then
        ({ s with element := some (jsPush s.element v) }, some SelErr.unique)
      else if s.id.isSome || s.className.isSome || s.attr.isSome
          || s.pseudoClass.isSome || s.pseudoElement.isSome then
        ({ s with element := some (jsPush s.element v) }, some SelErr.order)
      else ({ s with element := some (jsPush s.element v) }, none) := rfl

lemma idM_eq (v : String) (s : SelState) :
    idM v s =
      if 2 ≤ (jsPush s.id v).length then
        ({ s with id := some (jsPush s.id v) }, some SelErr.unique)
      else if s.className.isSome || s.attr.isSome
          || s.pseudoClass.isSome || s.pseudoElement.isSome then
        ({ s with id := some (jsPush s.id v) }, some SelErr.order)
      else ({ s with id := some (jsPush s.id v) }, none) := rfl

lemma classM_eq (v : String) (s : SelState) :
    classM v s =
      if s.attr.isSome || s.pseudoClass.isSome || s.pseudoElement.isSome then
        ({ s with className := some (jsPush s.className v) }, some SelErr.order)
      else ({ s with className := some (jsPush s.className v) }, none) := rfl

lemma attrM_eq (v : String) (s : SelState) :
    attrM v s =
      if s.pseudoClass.isSome || s.pseudoElement.isSome then
        ({ s with attr := some (jsPush s.attr v) }, some SelErr.order)
      else ({ s with attr := some (jsPush s.attr v) }, none) := rfl

lemma pseudoClassM_eq (v : String) (s : SelState) :
    pseudoClassM v s =
      if s.pseudoElement.isSome then
        ({ s with pseudoClass := some (jsPush s.pseudoClass v) }, some SelErr.order)
      else ({ s with pseudoClass := some (jsPush s.pseudoClass v) }, none) := rfl

lemma pseudoElementM_eq (v : String) (s : SelState) :
    pseudoElementM v s =
      if 2 ≤ (jsPush s.pseudoElement v).length then
        ({ s with pseudoElement := some (jsPush s.pseudoElement v) }, some SelErr.unique)
      else ({ s with pseudoElement := some (jsPush s.pseudoElement v) }, none) := rfl

lemma elementM_fst (v : String) (s : SelState) :
    (elementM v s).1 = { s with element := some (jsPush s.element v) } := by
  rw [elementM_eq]
  split
  · rfl
  · split <;> rfl

lemma idM_fst (v : String) (s : SelState) :
    (idM v s).1 = { s with id := some (jsPush s.id v) } := by
  rw [idM_eq]
  split
  · rfl
  · split <;> rfl

lemma classM_fst (v : String) (s : SelState) :
    (classM v s).1 = { s with className := some (jsPush s.className v) } := by
  rw [classM_eq]
  split <;> rfl

lemma attrM_fst (v : String) (s : SelState) :
    (attrM v s).1 = { s with attr := some (jsPush s.attr v) } := by
  rw [attrM_eq]
  split <;> rfl

lemma pseudoClassM_fst (v : String) (s : SelState) :
    (pseudoClassM v s).1 = { s with pseudoClass := some (jsPush s.pseudoClass v) } := by
  rw [pseudoClassM_eq]
  split <;> rfl

lemma pseudoElementM_fst (v : String) (s : SelState) :
    (pseudoElementM v s).1 = { s with pseudoElement := some (jsPush s.pseudoElement v) } := by
  rw [pseudoElementM_eq]
  split <;> rfl

lemma elementM_snd (v : String) (s : SelState) :
    (elementM v s).2 =
      if 2 ≤ (jsPush s.element v).length then some SelErr.unique
      else if s.id.isSome || s.className.isSome || s.attr.isSome
          || s.pseudoClass.isSome || s.pseudoElement.isSome then some SelErr.order
      else none := by
  rw [elementM_eq]
  split
  · rfl
  · split <;> rfl

lemma idM_snd (v : String) (s : SelState) :
    (idM v s).2 =
      if 2 ≤ (jsPush s.id v).length then some SelErr.unique
      else if s.className.isSome || s.attr.isSome
          || s.pseudoClass.isSome || s.pseudoElement.isSome then some SelErr.order
      else none := by
  rw [idM_eq]
  split
  · rfl
  · split <;> rfl

lemma classM_snd (v : String) (s : SelState) :
    (classM v s).2 =
      if s.attr.isSome || s.pseudoClass.isSome || s.pseudoElement.isSome then
        some SelErr.order
      else none := by
  rw [classM_eq]
  split <;> rfl

lemma attrM_snd (v : String) (s : SelState) :
    (attrM v s).2 =
      if s.pseudoClass.isSome || s.pseudoElement.isSome then some SelErr.order
      else none := by
  rw [attrM_eq]
  split <;> rfl

lemma pseudoClassM_snd (v : String) (s : SelState) :
    (pseudoClassM v s).2 =
      if s.pseudoElement.isSome then some SelErr.order else none := by
  rw [pseudoClassM_eq]
  split <;> rfl

lemma pseudoElementM_snd (v : String) (s : SelState) :
    (pseudoElementM v s).2 =
      if 2 ≤ (jsPush s.pseudoElement v).length then some SelErr.unique
      else none := by
  rw [pseudoElementM_eq]
  split <;> rfl

lemma stringifyM_snd (s : SelState) : (stringifyM s).2 = clearMain s := by
  unfold stringifyM
  split <;> rfl

lemma applyCall_empty (c : Call) : applyCall c emptyState = (facadeOf c, none) := by
  cases c <;> rfl

lemma runCalls_cons (c : Call) (cs : List Call) (s : SelState) :
    runCalls (c :: cs) s =
      match applyCall c s with
      | (s', none) => runCalls cs s'
      | (s', some e) => (s', some e) := rfl

lemma runCalls_cons_ok (c : Call) (cs : List Call) (s s' : SelState)
    (h : applyCall c s = (s', none)) :
    runCalls (c :: cs) s = runCalls cs s' := by
  rw [runCalls_cons, h]

lemma runCalls_append_ok (l1 l2 : List Call) (s s' : SelState)
    (h : runCalls l1 s = (s', none)) :
    runCalls (l1 ++ l2) s = runCalls l2 s' := by
  induction l1 generalizing s with
  | nil =>
    unfold runCalls at h
    cases h
    rfl
  | cons c cs ih =>
    rw [runCalls_cons] at h
    rw [List.cons_append, runCalls_cons]
    cases hc : applyCall c s with
    | mk t e =>
      rw [hc] at h
      cases e with
      | none => exact ih _ h
      | some err => simp at h

/-! ### Running an order-respecting sequence of category calls -/

lemma run_element_seg (vs : List String) (s : SelState) (hlen : vs.length ≤ 1)
    (h1 : s.id = none) (h2 : s.className = none) (h3 : s.attr = none)
    (h4 : s.pseudoClass = none) (h5 : s.pseudoElement = none)
    (h0 : s.element = none) :
    runCalls (vs.map Call.element) s
      = ({ s with element := jsFold s.element vs }, none) := by
  match vs with
  | [] => rfl
  | [v] =>
    rw [List.map_cons, List.map_nil,
      runCalls_cons_ok (Call.element v) [] s { s with element := some (jsPush s.element v) }]
    · rfl
    · show elementM v s = _
      rw [elementM_eq, h0]
      simp [jsPush, h1, h2, h3, h4, h5]
  | v1 :: v2 :: rest => simp at hlen

lemma run_id_seg (vs : List String) (s : SelState) (hlen : vs.length ≤ 1)
    (h2 : s.className = none) (h3 : s.attr = none)
    (h4 : s.pseudoClass = none) (h5 : s.pseudoElement = none)
    (h1 : s.id = none) :
    runCalls (vs.map Call.id) s = ({ s with id := jsFold s.id vs }, none) := by
  match vs with
  | [] => rfl
  | [v] =>
    rw [List.map_cons, List.map_nil,
      runCalls_cons_ok (Call.id v) [] s { s with id := some (jsPush s.id v) }]
    · rfl
    · show idM v s = _
      rw [idM_eq, h1]
      simp [jsPush, h2, h3, h4, h5]
  | v1 :: v2 :: rest => simp at hlen

lemma run_cls_seg (vs : List String) (s : SelState)
    (h3 : s.attr = none) (h4 : s.pseudoClass = none) (h5 : s.pseudoElement = none) :
    runCalls (vs.map Call.cls) s
      = ({ s with className := jsFold s.className vs }, none) := by
  induction vs generalizing s with
  | nil => rfl
  | cons v vs ih =>
    rw [List.map_cons,
      runCalls_cons_ok (Call.cls v) (vs.map Call.cls) s
        { s with className := some (jsPush s.className v) }]
    · rw [ih { s with className := some (jsPush s.className v) } h3 h4 h5]
      rfl
    · show classM v s = _
      rw [classM_eq]
      simp [h3, h4, h5]

lemma run_attr_seg (vs : List String) (s : SelState)
    (h4 : s.pseudoClass = none) (h5 : s.pseudoElement = none) :
    runCalls (vs.map Call.attr) s = ({ s with attr := jsFold s.attr vs }, none) := by
  induction vs generalizing s with
  | nil => rfl
  | cons v vs ih =>
    rw [List.map_cons,
      runCalls_cons_ok (Call.attr v) (vs.map Call.attr) s
        { s with attr := some (jsPush s.attr v) }]
    · rw [ih { s with attr := some (jsPush s.attr v) } h4 h5]
      rfl
    · show attrM v s = _
      rw [attrM_eq]
      simp [h4, h5]

lemma run_pc_seg (vs : List String) (s : SelState) (h5 : s.pseudoElement = none) :
    runCalls (vs.map Call.pseudoClass) s
      = ({ s with pseudoClass := jsFold s.pseudoClass vs }, none) := by
  induction vs generalizing s with
  | nil => rfl
  | cons v vs ih =>
    rw [List.map_cons,
      runCalls_cons_ok (Call.pseudoClass v) (vs.map Call.pseudoClass) s
        { s with pseudoClass := some (jsPush s.pseudoClass v) }]
    · rw [ih { s with pseudoClass := some (jsPush s.pseudoClass v) } h5]
      rfl
    · show pseudoClassM v s = _
      rw [pseudoClassM_eq]
      simp [h5]

lemma run_pe_seg (vs : List String) (s : SelState) (hlen : vs.length ≤ 1)
    (h5 : s.pseudoElement = none) :
    runCalls (vs.map Call.pseudoElement) s
      = ({ s with pseudoElement := jsFold s.pseudoElement vs }, none) := by
  match vs with
  | [] => rfl
  | [v] =>
    rw [List.map_cons, List.map_nil,
      runCalls_cons_ok (Call.pseudoElement v) [] s
        { s with pseudoElement := some (jsPush s.pseudoElement v) }]
    · rfl
    · show pseudoElementM v s = _
      rw [pseudoElementM_eq, h5]
      simp [jsPush]
  | v1 :: v2 :: rest => simp at hlen

lemma big_run (e i : Option String) (cls a pc : List String) (pe : Option String) :
    runCalls (callsOf e i cls a pc pe) emptyState =
      (⟨jsFold none e.toList, jsFold none i.toList, jsFold none cls, jsFold none a,
        jsFold none pc, jsFold none pe.toList, none, none, none, none⟩, none) := by
  have he : e.toList.length ≤ 1 := by cases e <;> simp
  have hi : i.toList.length ≤ 1 := by cases i <;> simp
  have hpe : pe.toList.length ≤ 1 := by cases pe <;> simp
  have h1 : runCalls (e.toList.map Call.element) emptyState
      = (⟨jsFold none e.toList, none, none, none, none, none,
          none, none, none, none⟩, none) :=
    run_element_seg e.toList emptyState he rfl rfl rfl rfl rfl rfl
  have h2 : runCalls (i.toList.map Call.id)
        ⟨jsFold none e.toList, none, none, none, none, none, none, none, none, none⟩
      = (⟨jsFold none e.toList, jsFold none i.toList, none, none, none, none,
          none, none, none, none⟩, none) :=
    run_id_seg i.toList _ hi rfl rfl rfl rfl rfl
  have h3 : runCalls (cls.map Call.cls)
        ⟨jsFold none e.toList, jsFold none i.toList, none, none, none, none,
          none, none, none, none⟩
      = (⟨jsFold none e.toList, jsFold none i.toList, jsFold none cls, none, none, none,
          none, none, none, none⟩, none) :=
    run_cls_seg cls _ rfl rfl rfl
  have h4 : runCalls (a.map Call.attr)
        ⟨jsFold none e.toList, jsFold none i.toList, jsFold none cls, none, none, none,
          none, none, none, none⟩
      = (⟨jsFold none e.toList, jsFold none i.toList, jsFold none cls, jsFold none a,
          none, none, none, none, none, none⟩, none) :=
    run_attr_seg a _ rfl rfl
  have h5 : runCalls (pc.map Call.pseudoClass)
        ⟨jsFold none e.toList, jsFold none i.toList, jsFold none cls, jsFold none a,
          none, none, none, none, none, none⟩
      = (⟨jsFold none e.toList, jsFold none i.toList, jsFold none cls, jsFold none a,
          jsFold none pc, none, none, none, none, none⟩, none) :=
    run_pc_seg pc _ rfl
  have h6 : runCalls (pe.toList.map Call.pseudoElement)
        ⟨jsFold none e.toList, jsFold none i.toList, jsFold none cls, jsFold none a,
          jsFold none pc, none, none, none, none, none⟩
      = (⟨jsFold none e.toList, jsFold none i.toList, jsFold none cls, jsFold none a,
          jsFold none pc, jsFold none pe.toList, none, none, none, none⟩, none) :=
    run_pe_seg pe.toList _ hpe rfl
  unfold callsOf
  simp only [List.append_assoc]
  rw [runCalls_append_ok _ _ _ _ h1, runCalls_append_ok _ _ _ _ h2,
    runCalls_append_ok _ _ _ _ h3, runCalls_append_ok _ _ _ _ h4,
    runCalls_append_ok _ _ _ _ h5, h6]

lemma stringify_run (e i : Option String) (cls a pc : List String) (pe : Option String) :
    (stringifyM ⟨jsFold none e.toList, jsFold none i.toList, jsFold none cls,
        jsFold none a, jsFold none pc, jsFold none pe.toList, none, none, none, none⟩).1
      = specConcat e i cls a pc pe := by
  have hj : ∀ x : String, String.join [x] = x := fun _ => rfl
  cases e <;> cases i <;> cases pe <;>
    rcases eq_or_ne cls [] with hc | hc <;>
    rcases eq_or_ne a [] with ha | ha <;>
    rcases eq_or_ne pc [] with hp | hp <;>
    simp [stringifyM, jsTruthyStr, simpleString, specConcat, jsFold_none, jsFold,
      jsPush, Option.toList, hc, ha, hp, hj]

lemma isSome_false_eq_none {α : Type} {o : Option α} (h : o.isSome = false) :
    o = none := by
  cases o
  · rfl
  · simp at h

lemma elementM_ok (v : String) (s : SelState) (h : (elementM v s).2 = none) :
    s.id.isSome = false ∧ s.className.isSome = false ∧ s.attr.isSome = false
      ∧ s.pseudoClass.isSome = false ∧ s.pseudoElement.isSome = false := by
  rw [elementM_snd] at h
  split_ifs at h with h1 h2
  simp only [Bool.or_eq_true, not_or, Bool.not_eq_true] at h2
  tauto

lemma idM_ok (v : String) (s : SelState) (h : (idM v s).2 = none) :
    s.className.isSome = false ∧ s.attr.isSome = false
      ∧ s.pseudoClass.isSome = false ∧ s.pseudoElement.isSome = false := by
  rw [idM_snd] at h
  split_ifs at h with h1 h2
  simp only [Bool.or_eq_true, not_or, Bool.not_eq_true] at h2
  tauto

lemma classM_ok (v : String) (s : SelState) (h : (classM v s).2 = none) :
    s.attr.isSome = false ∧ s.pseudoClass.isSome = false
      ∧ s.pseudoElement.isSome = false := by
  rw [classM_snd] at h
  split_ifs at h with h1
  simp only [Bool.or_eq_true, not_or, Bool.not_eq_true] at h1
  tauto

lemma attrM_ok (v : String) (s : SelState) (h : (attrM v s).2 = none) :
    s.pseudoClass.isSome = false ∧ s.pseudoElement.isSome = false := by
  rw [attrM_snd] at h
  split_ifs at h with h1
  simp only [Bool.or_eq_true, not_or, Bool.not_eq_true] at h1
  tauto

lemma pseudoClassM_ok (v : String) (s : SelState) (h : (pseudoClassM v s).2 = none) :
    s.pseudoElement.isSome = false := by
  rw [pseudoClassM_snd] at h
  split_ifs at h with h1
  simpa [Bool.not_eq_true] using h1

lemma succ_no_later (c : Call) (s : SelState) (D : Cat)
    (h : (applyCall c s).2 = none) (hlt : rank (catOf c) < rank D) :
    present s D = false := by
  cases c with
  | element v =>
    obtain ⟨h1, h2, h3, h4, h5⟩ := elementM_ok v s h
    cases D
    · simp [catOf, rank] at hlt
    · exact h1
    · exact h2
    · exact h3
    · exact h4
    · exact h5
  | id v =>
    obtain ⟨h2, h3, h4, h5⟩ := idM_ok v s h
    cases D
    · simp [catOf, rank] at hlt
    · simp [catOf, rank] at hlt
    · exact h2
    · exact h3
    · exact h4
    · exact h5
  | cls v =>
    obtain ⟨h3, h4, h5⟩ := classM_ok v s h
    cases D
    · simp [catOf, rank] at hlt
    · simp [catOf, rank] at hlt
    · simp [catOf, rank] at hlt
    · exact h3
    · exact h4
    · exact h5
  | attr v =>
    obtain ⟨h4, h5⟩ := attrM_ok v s h
    cases D
    · simp [catOf, rank] at hlt
    · simp [catOf, rank] at hlt
    · simp [catOf, rank] at hlt
    · simp [catOf, rank] at hlt
    · exact h4
    · exact h5
  | pseudoClass v =>
    have h5 := pseudoClassM_ok v s h
    cases D
    · simp [catOf, rank] at hlt
    · simp [catOf, rank] at hlt
    · simp [catOf, rank] at hlt
    · simp [catOf, rank] at hlt
    · simp [catOf, rank] at hlt
    · exact h5
  | pseudoElement v =>
    cases D <;> simp [catOf, rank] at hlt

lemma present_after (c : Call) (s : SelState) :
    present (applyCall c s).1 (catOf c) = true := by
  cases c <;> simp [applyCall, elementM_fst, idM_fst, classM_fst, attrM_fst,
    pseudoClassM_fst, pseudoElementM_fst, present, catField, catOf]

lemma facade_present (c : Call) : present (facadeOf c) (catOf c) = true := by
  cases c <;> rfl

lemma run_ok_sorted (cs : List Call) (s : SelState) (C : Cat)
    (hp : present s C = true) (h : (runCalls cs s).2 = none) :
    List.Chain' (fun x y => x ≤ y) (rank C :: cs.map fun c => rank (catOf c)) := by
  induction cs generalizing s C with
  | nil => simp
  | cons c cs ih =>
    rw [runCalls_cons] at h
    cases hc : applyCall c s with
    | mk t eo =>
      rw [hc] at h
      cases eo with
      | some err => simp at h
      | none =>
        have hle : rank C ≤ rank (catOf c) := by
          by_contra hgt
          push_neg at hgt
          have hcon := succ_no_later c s C (by rw [hc]) hgt
          rw [hp] at hcon
          simp at hcon
        have hpres : present t (catOf c) = true := by
          have hpa := present_after c s
          rw [hc] at hpa
          exact hpa
        have htail := ih t (catOf c) hpres h
        rw [List.map_cons, List.chain'_cons]
        exact ⟨hle, htail⟩

lemma later_blocks (s : SelState) (c : Call) (D : Cat)
    (hp : present s D = true) (hlt : rank (catOf c) < rank D) :
    (applyCall c s).2.isSome = true
      ∧ (present s (catOf c) = false → (applyCall c s).2 = some SelErr.order) := by
  constructor
  · cases hok : (applyCall c s).2 with
    | none =>
      have hcon := succ_no_later c s D hok hlt
      rw [hp] at hcon
      simp at hcon
    | some e => rfl
  · intro hnone
    cases c with
    | element v =>
      have hel : s.element = none := isSome_false_eq_none hnone
      show (elementM v s).2 = some SelErr.order
      have hcond : (s.id.isSome || s.className.isSome || s.attr.isSome
          || s.pseudoClass.isSome || s.pseudoElement.isSome) = true := by
        cases D
        · simp [catOf, rank] at hlt
        all_goals
          simp only [present, catField] at hp
          simp [hp]
      rw [elementM_snd, hel, if_neg (by simp [jsPush]), if_pos hcond]
    | id v =>
      have hel : s.id = none := isSome_false_eq_none hnone
      show (idM v s).2 = some SelErr.order
      have hcond : (s.className.isSome || s.attr.isSome
          || s.pseudoClass.isSome || s.pseudoElement.isSome) = true := by
        cases D
        · simp [catOf, rank] at hlt
        · simp [catOf, rank] at hlt
        all_goals
          simp only [present, catField] at hp
          simp [hp]
      rw [idM_snd, hel, if_neg (by simp [jsPush]), if_pos hcond]
    | cls v =>
      show (classM v s).2 = some SelErr.order
      have hcond : (s.attr.isSome || s.pseudoClass.isSome
          || s.pseudoElement.isSome) = true := by
        cases D
        · simp [catOf, rank] at hlt
        · simp [catOf, rank] at hlt
        · simp [catOf, rank] at hlt
        all_goals
          simp only [present, catField] at hp
          simp [hp]
      rw [classM_snd, if_pos hcond]
    | attr v =>
      show (attrM v s).2 = some SelErr.order
      have hcond : (s.pseudoClass.isSome || s.pseudoElement.isSome) = true := by
        cases D
        · simp [catOf, rank] at hlt
        · simp [catOf, rank] at hlt
        · simp [catOf, rank] at hlt
        · simp [catOf, rank] at hlt
        all_goals
          simp only [present, catField] at hp
          simp [hp]
      rw [attrM_snd, if_pos hcond]
    | pseudoClass v =>
      show (pseudoClassM v s).2 = some SelErr.order
      have hcond : s.pseudoElement.isSome = true := by
        cases D
        · simp [catOf, rank] at hlt
        · simp [catOf, rank] at hlt
        · simp [catOf, rank] at hlt
        · simp [catOf, rank] at hlt
        · simp [catOf, rank] at hlt
        · simpa [present, catField] using hp
      rw [pseudoClassM_snd, if_pos hcond]
    | pseudoElement v =>
      exact absurd hlt (by cases D <;> simp [catOf, rank])

/-! ### The claims -/

/-- C1: for every sequence of category calls that follows the mandated
category order and respects the at-most-one limits (one optional element, one
optional id, any classes, attributes and pseudo-classes, one optional
pseudo-element), the chain — started through the `cssSelectorBuilder` facade
and continued by method calls — completes without an error, and `stringify()`
on the resulting simple selector returns the concatenation, in fixed category
order, of each present category's fragments with its glue: element joined
with `''` and no prefix, id joined with `''` prefixed `#`, class prefixed `.`
and joined with `.`, attr joined with `''` and wrapped in one pair of
brackets, pseudo-class prefixed `:` and joined with `:`, pseudo-element
prefixed `::`; absent categories contribute nothing (`specConcat`). -/
theorem C1_valid_chain_stringify (e i : Option String) (cls a pc : List String)
    (pe : Option String) (c : Call) (cs : List Call)
    (h : callsOf e i cls a pc pe = c :: cs) :
    (runCalls cs (facadeOf c)).2 = none ∧
      (stringifyM (runCalls cs (facadeOf c)).1).1 = specConcat e i cls a pc pe := by
  have hfac : runCalls (c :: cs) emptyState = runCalls cs (facadeOf c) :=
    runCalls_cons_ok c cs emptyState (facadeOf c) (applyCall_empty c)
  have hrun := big_run e i cls a pc pe
  rw [h, hfac] at hrun
  rw [hrun]
  exact ⟨rfl, stringify_run e i cls a pc pe⟩

/-- Witness for C1, on the specification's own example
`id('main').class('container').class('editable').stringify()`. -/
theorem C1_valid_chain_stringify_witness :
    ((runCalls [Call.cls "container", Call.cls "editable"] (facadeOf (Call.id "main"))).2 = none
      ∧ (stringifyM (runCalls [Call.cls "container", Call.cls "editable"]
            (facadeOf (Call.id "main"))).1).1
        = specConcat none (some "main") ["container", "editable"] [] [] none)
    ∧ specConcat none (some "main") ["container", "editable"] [] [] none
        = "#main.container.editable" :=
  ⟨C1_valid_chain_stringify none (some "main") ["container", "editable"] [] [] none
      (Call.id "main") [Call.cls "container", Call.cls "editable"] rfl, rfl⟩

/-- C2: for every left/right argument (builder instance or raw string) and
every combinator token among `' '`, `'+'`, `'~'`, `'>'`,
`combine(left, comb, right).stringify()` is the literal template
`left' ++ " " ++ comb ++ " " ++ right'` where the primed values stringify a
builder-instance argument and pass a raw string through; in particular the
space combinator yields three spaces between the children. -/
theorem C2_combine_stringify (l : CombineArg) (comb : String) (r : CombineArg)
    (h : comb ∈ [" ", "+", "~", ">"]) :
    (stringifyM (cssCombine l comb r)).1
      = argString l ++ " " ++ comb ++ " " ++ argString r := by
  simp only [List.mem_cons, List.mem_singleton, List.not_mem_nil, or_false] at h
  rcases h with rfl | rfl | rfl | rfl <;> rfl

/-- Witness for C2: `combine(A, ' ', B)` over raw strings produces the
three-space separator. -/
theorem C2_combine_stringify_witness :
    (stringifyM (cssCombine (CombineArg.str "a") " " (CombineArg.str "b"))).1
      = "a   b" :=
  C2_combine_stringify (CombineArg.str "a") " " (CombineArg.str "b") (by decide)

/-- C3: once a fragment of a later category `D` has been added, any call
adding a fragment of an earlier category raises an error (specifically the
order error when the earlier category has no entry yet); equivalently, every
chain (facade call followed by method calls) that completes without an error
has its category ranks in non-decreasing mandated order. -/
theorem C3_mandated_order :
    (∀ (s : SelState) (c : Call) (D : Cat), present s D = true →
      rank (catOf c) < rank D →
        (applyCall c s).2.isSome = true
          ∧ (present s (catOf c) = false → (applyCall c s).2 = some SelErr.order))
    ∧ ∀ (c0 : Call) (cs : List Call), (runCalls cs (facadeOf c0)).2 = none →
        List.Chain' (fun x y => x ≤ y) ((c0 :: cs).map fun c => rank (catOf c)) := by
  constructor
  · exact fun s c D hp hlt => later_blocks s c D hp hlt
  · intro c0 cs h
    have hs := run_ok_sorted cs (facadeOf c0) (catOf c0) (facade_present c0) h
    rw [List.map_cons]
    exact hs

/-- Witness for C3: a class call after an attribute fragment errors (and with
no prior class entry the error is the order error); the successful chain
`element('a').id('b')` has non-decreasing ranks. -/
theorem C3_mandated_order_witness :
    ((applyCall (Call.cls "x") (facadeOf (Call.attr "k"))).2.isSome = true
      ∧ (present (facadeOf (Call.attr "k")) (catOf (Call.cls "x")) = false →
          (applyCall (Call.cls "x") (facadeOf (Call.attr "k"))).2 = some SelErr.order))
    ∧ List.Chain' (fun x y => x ≤ y)
        ((Call.element "a" :: [Call.id "b"]).map fun c => rank (catOf c)) :=
  ⟨C3_mandated_order.1 (facadeOf (Call.attr "k")) (Call.cls "x") Cat.attr rfl (by decide),
    C3_mandated_order.2 (Call.element "a") [Call.id "b"] rfl⟩

/-- C4 counterexample: on the chain `element('a').id('b')` — a state where id
already has an entry — a further `element('c')` call raises the uniqueness
error, not the order error, because the uniqueness check fires first; this
refutes the claim for states where the element category already has an
entry. -/
theorem C4_counterexample :
    (runCalls [Call.id "b", Call.element "c"] (facadeOf (Call.element "a"))).2
        = some SelErr.unique
      ∧ (runCalls [Call.id "b", Call.element "c"] (facadeOf (Call.element "a"))).2
        ≠ some SelErr.order :=
  ⟨rfl, by decide⟩

/-- C4 (amended): `element(v)` raises the order error whenever any of
id/class/attr/pseudo-class/pseudo-element already has an entry and the
element category has no entry yet; when element already has an entry the
uniqueness error is raised first instead. -/
theorem C4_element_order_error (s : SelState) (v : String)
    (h0 : s.element = none)
    (h : (s.id.isSome || s.className.isSome || s.attr.isSome
        || s.pseudoClass.isSome || s.pseudoElement.isSome) = true) :
    (elementM v s).2 = some SelErr.order := by
  rw [elementM_snd, h0, if_neg (by simp [jsPush]), if_pos h]

/-- Witness for C4 (amended): `class('x')` then `element('y')`. -/
theorem C4_element_order_error_witness :
    (elementM "y" (facadeOf (Call.cls "x"))).2 = some SelErr.order :=
  C4_element_order_error (facadeOf (Call.cls "x")) "y" rfl rfl

/-- C5 counterexample: a compound instance produced by `combine` does not
return the empty string on the second `stringify()` call — it returns the
same non-empty string again, refuting the claim as stated for every builder
instance. -/
theorem C5_counterexample :
    (stringifyM (stringifyM (cssCombine (CombineArg.str "a") "+"
        (CombineArg.str "b"))).2).1 = "a + b"
      ∧ ("a + b" : String) ≠ "" :=
  ⟨rfl, by decide⟩

/-- C5 (amended): for every simple-selector builder instance (one whose
`combinator` field is unset or empty, as produced by the six category facade
methods), `stringify()` clears all accumulated category state, and a second
`stringify()` on the same instance returns the empty string. -/
theorem C5_single_use_stringify (s : SelState)
    (h : jsTruthyStr s.combinator = false) :
    ((stringifyM s).2.element = none ∧ (stringifyM s).2.id = none
      ∧ (stringifyM s).2.className = none ∧ (stringifyM s).2.attr = none
      ∧ (stringifyM s).2.pseudoClass = none ∧ (stringifyM s).2.pseudoElement = none)
    ∧ (stringifyM (stringifyM s).2).1 = "" := by
  rw [stringifyM_snd]
  refine ⟨⟨rfl, rfl, rfl, rfl, rfl, rfl⟩, ?_⟩
  have hc : jsTruthyStr (clearMain s).combinator = false := h
  unfold stringifyM
  rw [hc]
  rfl

/-- Witness for C5 (amended), on the instance built by `element('a')`. -/
theorem C5_single_use_stringify_witness :
    (((stringifyM (builderElement "a")).2.element = none
      ∧ (stringifyM (builderElement "a")).2.id = none
      ∧ (stringifyM (builderElement "a")).2.className = none
      ∧ (stringifyM (builderElement "a")).2.attr = none
      ∧ (stringifyM (builderElement "a")).2.pseudoClass = none
      ∧ (stringifyM (builderElement "a")).2.pseudoElement = none)
    ∧ (stringifyM (stringifyM (builderElement "a")).2).1 = "") :=
  C5_single_use_stringify (builderElement "a") rfl

/-- C6: a second fragment added to the element, id, or pseudo-element
category of a chain raises the uniqueness error, while class, attr and
pseudoClass never raise a uniqueness error. -/
theorem C6_uniqueness (s : SelState) (v x : String) (xs : List String) :
    (s.element = some (x :: xs) → (elementM v s).2 = some SelErr.unique)
    ∧ (s.id = some (x :: xs) → (idM v s).2 = some SelErr.unique)
    ∧ (s.pseudoElement = some (x :: xs) → (pseudoElementM v s).2 = some SelErr.unique)
    ∧ (classM v s).2 ≠ some SelErr.unique
    ∧ (attrM v s).2 ≠ some SelErr.unique
    ∧ (pseudoClassM v s).2 ≠ some SelErr.unique := by
  refine ⟨?_, ?_, ?_, ?_, ?_, ?_⟩
  · intro h
    rw [elementM_snd, h, if_pos (by simp [jsPush])]
  · intro h
    rw [idM_snd, h, if_pos (by simp [jsPush])]
  · intro h
    rw [pseudoElementM_snd, h, if_pos (by simp [jsPush])]
  · rw [classM_snd]
    split <;> simp
  · rw [attrM_snd]
    split <;> simp
  · rw [pseudoClassM_snd]
    split <;> simp

/-- Witness for C6, on the state of the valid chain
`element('a').id('b').pseudoElement('p')`. -/
theorem C6_uniqueness_witness :
    (elementM "z" (runCalls [Call.id "b", Call.pseudoElement "p"]
        (facadeOf (Call.element "a"))).1).2 = some SelErr.unique
    ∧ (idM "z" (runCalls [Call.id "b", Call.pseudoElement "p"]
        (facadeOf (Call.element "a"))).1).2 = some SelErr.unique
    ∧ (pseudoElementM "z" (runCalls [Call.id "b", Call.pseudoElement "p"]
        (facadeOf (Call.element "a"))).1).2 = some SelErr.unique
    ∧ (classM "z" (runCalls [Call.id "b", Call.pseudoElement "p"]
        (facadeOf (Call.element "a"))).1).2 ≠ some SelErr.unique
    ∧ (attrM "z" (runCalls [Call.id "b", Call.pseudoElement "p"]
        (facadeOf (Call.element "a"))).1).2 ≠ some SelErr.unique
    ∧ (pseudoClassM "z" (runCalls [Call.id "b", Call.pseudoElement "p"]
        (facadeOf (Call.element "a"))).1).2 ≠ some SelErr.unique := by
  have h1 := C6_uniqueness (runCalls [Call.id "b", Call.pseudoElement "p"]
    (facadeOf (Call.element "a"))).1 "z" "a" []
  have h2 := C6_uniqueness (runCalls [Call.id "b", Call.pseudoElement "p"]
    (facadeOf (Call.element "a"))).1 "z" "b" []
  have h3 := C6_uniqueness (runCalls [Call.id "b", Call.pseudoElement "p"]
    (facadeOf (Call.element "a"))).1 "z" "p" []
  exact ⟨h1.1 rfl, h2.2.1 rfl, h3.2.2.1 rfl, h1.2.2.2.1, h1.2.2.2.2.1,
    h1.2.2.2.2.2⟩

/-- C7 counterexample: on the chain `id('a').class('x')` — a state where
class already has an entry — a further `id('y')` call raises the uniqueness
error, not the order error, refuting the claim as a statement about every
instance state with class present. -/
theorem C7_counterexample :
    (runCalls [Call.cls "x", Call.id "y"] (facadeOf (Call.id "a"))).2
        = some SelErr.unique
      ∧ (runCalls [Call.cls "x", Call.id "y"] (facadeOf (Call.id "a"))).2
        ≠ some SelErr.order :=
  ⟨rfl, by decide⟩

/-- C7 (amended): `id(v)` raises the order error whenever any of
class/attr/pseudo-class/pseudo-element already has an entry and the id
category has no entry yet (a second id fragment raises the uniqueness error
first); in particular `class('x')` then `id('y')` raises the order error. -/
theorem C7_id_order_error (s : SelState) (v : String)
    (h0 : s.id = none)
    (h : (s.className.isSome || s.attr.isSome || s.pseudoClass.isSome
        || s.pseudoElement.isSome) = true) :
    (idM v s).2 = some SelErr.order := by
  rw [idM_snd, h0, if_neg (by simp [jsPush]), if_pos h]

/-- Witness for C7 (amended): `class('x')` then `id('y')`. -/
theorem C7_id_order_error_witness :
    (idM "y" (facadeOf (Call.cls "x"))).2 = some SelErr.order :=
  C7_id_order_error (facadeOf (Call.cls "x")) "y" rfl rfl

/-- C8: when a category call raises either error, the offending fragment has
already been appended to the instance's category state before the error is
thrown — the post-call state holds the old fragments with the new value
pushed, so the failing call is not atomic. -/
theorem C8_error_after_append (s : SelState) (c : Call) (e : SelErr)
    (h : (applyCall c s).2 = some e) :
    catField (applyCall c s).1 (catOf c)
      = some (jsPush (catField s (catOf c)) (valOf c)) := by
  cases c <;>
    simp [applyCall, elementM_fst, idM_fst, classM_fst, attrM_fst,
      pseudoClassM_fst, pseudoElementM_fst, catField, catOf, valOf]

/-- Witness for C8: the failing second `element` call has appended its value. -/
theorem C8_error_after_append_witness :
    (applyCall (Call.element "b") (facadeOf (Call.element "a"))).2
        = some SelErr.unique
    ∧ catField (applyCall (Call.element "b") (facadeOf (Call.element "a"))).1
          (catOf (Call.element "b"))
        = some (jsPush (catField (facadeOf (Call.element "a"))
            (catOf (Call.element "b"))) (valOf (Call.element "b"))) :=
  ⟨rfl, C8_error_after_append (facadeOf (Call.element "a")) (Call.element "b")
    SelErr.unique rfl⟩

/-- C9: the facade holds no shared mutable state and each facade method
constructs a fresh instance, so in any interleaved execution of two chains,
each chain's final state — and hence its stringify result — equals the state
obtained by running that chain's own calls alone. -/
theorem C9_chain_independence (tr : List (Bool × Call)) (a b : SelState) :
    (runW tr (a, b)).1 = runAll ((tr.filter fun x => x.1).map fun x => x.2) a
    ∧ (runW tr (a, b)).2 = runAll ((tr.filter fun x => !x.1).map fun x => x.2) b
    ∧ (stringifyM (runW tr (a, b)).2).1
      = (stringifyM (runAll ((tr.filter fun x => !x.1).map fun x => x.2) b)).1 := by
  induction tr generalizing a b with
  | nil => exact ⟨rfl, rfl, rfl⟩
  | cons p tr ih =>
    obtain ⟨w, c⟩ := p
    cases w
    · simpa [runW, runAll, stepW, List.foldl_cons, List.filter_cons]
        using ih a (applyCall c b).1
    · simpa [runW, runAll, stepW, List.foldl_cons, List.filter_cons]
        using ih (applyCall c a).1 b

/-- C10: stringify on a compound selector produced by `combine` is
repeatable: a second `stringify()` on the same instance returns the same
string, because `selector1`, `combinator` and `selector2` survive the
clearing of `main`. -/
theorem C10_compound_stringify_repeatable (l : CombineArg) (comb : String)
    (r : CombineArg) :
    (stringifyM (stringifyM (cssCombine l comb r)).2).1
      = (stringifyM (cssCombine l comb r)).1 := by
  rw [stringifyM_snd]
  unfold stringifyM
  have h1 : (clearMain (cssCombine l comb r)).combinator = some comb := rfl
  have h2 : (cssCombine l comb r).combinator = some comb := rfl
  rw [h1, h2]
  by_cases hc : jsTruthyStr (some comb) = true
  · rw [if_pos hc, if_pos hc]
    rfl
  · rw [if_neg hc, if_neg hc]
    rfl
